import Mathlib

/-!
Verification development for the py3-ecrterm transmission engine and wire
frame codec (src/ecrterm/ecr.py and src/ecrterm/transmission/_transmission.py).

Bytes are modelled as `Nat`, byte sequences as `List Nat`.  The concrete
packet catalogue, the transports and the response handlers are external
collaborators; they appear here as parameters / oracles.
-/

/-- Modelled from the spec: the wire control codes DLE/STX/ETX/ACK/NAK come
from `ecrterm.transmission.signals`, a module that is not part of the sources
under review.  The spec's glossary names them as the escape, frame-start,
frame-end, acknowledge and negative-acknowledge single-byte codes; their
values are the standard ASCII control values used by the ZVT serial protocol.
Scenario E of the spec pins DLE = 0x10 (the un-doubled literal DLE appears as
0x10 in the expected body). -/
def DLE : Nat := 0x10

/-- Modelled from the spec: frame start code (see `DLE`). -/
def STX : Nat := 0x02

/-- Modelled from the spec: frame end code (see `DLE`). -/
def ETX : Nat := 0x03

/-- Modelled from the spec: acknowledge code (see `DLE`). -/
def ACK : Nat := 0x06

/-- Modelled from the spec: negative acknowledge code (see `DLE`). -/
def NAK : Nat := 0x15

/-- Modelled from the spec: the fixed success status returned by a completed
transmit/abort cycle (`TRANSMIT_OK` of `ecrterm.transmission.signals`, not in
the sources under review).  `ecr.py` compares the result of `transmit` with
`0` (`payment`: `if code == 0`), so the success status is the number 0. -/
def TRANSMIT_OK : Nat := 0

/-- Raw bytes on the wire. -/
abbrev Raw := List Nat

/-- The ways `dismantle_serial_packet` can fail.  `noHeader` and
`headerError` are raised as `TransportLayerException`; `dleWithoutSense` is
the plain `Exception('DLE without sense detected.')`; `indexError` models a
Python `IndexError` from reading the two checksum bytes past the end of the
input.  `fuelOut` is an artefact of the fuel-based embedding of the `while`
loop and is proved unreachable (`dismantleLoop_fuel_enough`). -/
inductive DErr
  | noHeader
  | headerError
  | dleWithoutSense
  | indexError
  | fuelOut
deriving DecidableEq, Repr

/-- The `while not crc and i < len(data)` loop of `dismantle_serial_packet`
(src/ecrterm/ecr.py lines 44-67), embedded statement by statement.  The state
is the index `i`, the escape flag `dle` and the accumulated body `apdu`.
Note that the branch for a DLE byte with the flag clear executes `continue`
without advancing `i`, so the same byte is read again on the next iteration —
this is what the source does.  The loop is driven by `fuel`, which strictly
decreases; `2 * data.length + 1` fuel always suffices
(`dismantleLoop_fuel_enough`). -/
def dismantleLoop (data : List Nat) : Nat → Nat → Bool → List Nat →
    Except DErr (Option (List Nat) × List Nat)
  | 0, _, _, _ => .error .fuelOut
  | fuel + 1, i, dle, apdu =>
    if h : i < data.length then
      let b := data.get ⟨i, h⟩
      if b = ETX ∧ dle then
        -- crc = [data[i + 1], data[i + 2]]; the loop condition `not crc`
        -- then fails, so the loop exits and returns (crc, apdu).
        if h2 : i + 2 < data.length then
          .ok (some [data.get ⟨i + 1, by omega⟩, data.get ⟨i + 2, h2⟩], apdu)
        else
          .error .indexError
      else if b = DLE then
        if dle = false then
          -- dle = True; continue  (the index i is NOT advanced)
          dismantleLoop data fuel i true apdu
        else
          -- "this is the second dle. we take it.": dle = False, then fall
          -- through to `apdu += [b]; i += 1`.
          dismantleLoop data fuel (i + 1) false (apdu ++ [b])
      else if dle then
        .error .dleWithoutSense
      else
        dismantleLoop data fuel (i + 1) dle (apdu ++ [b])
    else
      -- input exhausted with crc still None: return (None, apdu)
      .ok (none, apdu)

/-- Embedding of `dismantle_serial_packet` (src/ecrterm/ecr.py lines 31-68):
header check, then the scanning loop starting at index 2 with the escape
flag clear and an empty body. -/
def dismantle_serial_packet (data : List Nat) :
    Except DErr (Option (List Nat) × List Nat) :=
  let header := data.take 2
  if header = [] then .error .noHeader
  else if header ≠ [DLE, STX] then .error .headerError
  else dismantleLoop data (2 * data.length + 1) 2 false []

/-- Result of `parse_represented_data`: the distinguished acknowledgement
markers, a parsed packet, or a propagated exception. -/
inductive RepResult (P : Type)
  | ack
  | nak
  | packet (p : P)
  | exn (e : DErr)
deriving DecidableEq, Repr

/-- Embedding of `parse_represented_data` (src/ecrterm/ecr.py lines 71-91).
The string-conversion entry branch (`is_stringlike`) is omitted: inputs here
are already byte lists.  `Packet.parse` belongs to the external packet
catalogue and is the parameter `pparse`.  A `TransportLayerException` from
`dismantle_serial_packet` (no header / bad header) is caught and `pass`ed, so
parsing proceeds on the unchanged input; any other exception propagates.
Reading `data[0]` of an empty input raises an `IndexError`. -/
def parse_represented_data {P : Type} (pparse : List Nat → P)
    (data : List Nat) : RepResult P :=
  match data.head? with
  | none => .exn .indexError
  | some b0 =>
    if b0 = DLE then
      match dismantle_serial_packet data with
      | .ok (_, apdu) => .packet (pparse apdu)
      | .error .noHeader => .packet (pparse data)
      | .error .headerError => .packet (pparse data)
      | .error e => .exn e
    else if b0 = ACK then
      if data.length = 1 then .ack else .packet (pparse data)
    else if b0 = NAK then
      if data.length = 1 then .nak else .packet (pparse data)
    else .packet (pparse data)

example : dismantle_serial_packet [] = .error .noHeader := rfl
example : dismantle_serial_packet [1, 2] = .error .headerError := rfl
example :
    dismantle_serial_packet [0x10, 0x02, 0x01, 0x02, 0x10, 0x10, 0x03,
      0x10, 0x03, 170, 187] =
    .ok (none, [0x01, 0x02, 0x10, 0x10, 0x03, 0x10, 0x03, 170, 187]) := rfl

/-!
## Transmission engine

State and collaborators of `ecrterm.transmission._transmission.Transmission`.
Packets are an abstract type `P`.  History entries are pairs
`(incoming?, packet)` exactly as the source stores them (`(False, packet)`
for an outgoing packet, `(True, response)` for an incoming one).
-/

/-- Exceptions as the engine distinguishes them: `transportLayer` is
`TransportLayerException` (the only class caught by the inner handler of the
slave-wait loop); `other` stands for every other exception. -/
inductive Exc
  | transportLayer
  | other
deriving DecidableEq, Repr

/-- Mutable fields of a `Transmission` object that the claims talk about. -/
structure TState (P : Type) where
  is_master : Bool
  is_waiting : Bool
  last : Option P
  history : List (Bool × P)
  last_history : List (Bool × P)
deriving Repr

/-- The collaborators of one engine call, given as oracles: the single
`transport.send` outcome, the packet parser, the stream of
`transport.receive` outcomes (consumed in order; an exhausted stream models a
receive that blocks until the timeout, i.e. raises `TransportLayerException`),
and the packet's `handle_response`, a function of the number of prior
`handle_response` calls in this engine call and of the response packet it is
asked about, returning the keep-master boolean or raising. -/
structure Env (P : Type) where
  send : Except Exc (Bool × Raw)
  parse : Raw → Except Exc P
  receives : List (Except Exc (Bool × Raw))
  handles : Nat → P → Except Exc Bool

/-- Outcome of the slave-wait loop of `_transmit`.  `res = none` means the
loop exited normally (fall through to lines 99-100); `res = some r` means
control left `_transmit` from inside the loop, either by the early
`return TRANSMIT_OK` of the benign-timeout branch or by an exception. -/
structure LoopRes (P : Type) where
  res : Option (Except Exc Nat)
  is_master : Bool
  hist : List (Bool × P)
  nReceive : Nat
  nParse : Nat
  nHandle : Nat
  nLoop : Nat
  nReadAhead : Nat
  handleArgs : List P
deriving Repr

/-- Lines 78-89 of `_transmit`: one `transport.receive` attempt guarded by
`except TransportLayerException`.  `rv` is the next receive outcome (`none`
models an exhausted stream: the receive times out).  Result `.inl r` means
control leaves the loop (`r` the returned success status or the raised
exception); `.inr (success, response, hist)` means the loop continues with
the newly parsed response recorded in the history.  `im` is `self.is_master`
at the moment of the receive: the caught timeout is benign (early
`return TRANSMIT_OK`) exactly when `im` is true, and is re-raised otherwise.
Note `Packet.parse` runs inside the same `try`, so a
`TransportLayerException` from it is handled by the same branch. -/
def receiveStep {P : Type} (parse : Raw → Except Exc P)
    (rv : Option (Except Exc (Bool × Raw))) (im : Bool)
    (hist : List (Bool × P)) : Except Exc Nat ⊕ (Bool × P × List (Bool × P)) :=
  match rv.getD (.error .transportLayer) with
  | .error .transportLayer =>
    .inl (if im then .ok TRANSMIT_OK else .error .transportLayer)
  | .error .other => .inl (.error .other)
  | .ok (succ, raw) =>
    match parse raw with
    | .error .transportLayer =>
      .inl (if im then .ok TRANSMIT_OK else .error .transportLayer)
    | .error .other => .inl (.error .other)
    | .ok r => .inr (succ, r, hist ++ [(true, r)])

/-- The `while not self.is_master` loop of `_transmit`
(src/ecrterm/transmission/_transmission.py lines 73-95), embedded statement
by statement.  `hIdx` counts the `handle_response` calls already made in this
engine call; `im` is the current `self.is_master`; `success`/`response` are
the current values of those local variables.  Recursion is structural on the
remaining receive stream: every iteration that neither exits nor raises
consumes one receive outcome. -/
def transmitLoop {P : Type} (parse : Raw → Except Exc P)
    (handles : Nat → P → Except Exc Bool) (packet : P) :
    Nat → List (Except Exc (Bool × Raw)) → Bool → Bool → P →
    List (Bool × P) → LoopRes P
  | _, _, true, _, _, hist =>
    -- while condition `not self.is_master` is false: exit the loop
    { res := none, is_master := true, hist := hist, nReceive := 0,
      nParse := 0, nHandle := 0, nLoop := 0, nReadAhead := 0,
      handleArgs := [] }
  | hIdx, receives, false, success, response, hist =>
    -- self.is_master = self.handle_packet_response(self.last, response)
    match handles hIdx response with
    | .error e =>
      { res := some (.error e), is_master := false, hist := hist,
        nReceive := 0, nParse := 0, nHandle := 1, nLoop := 1,
        nReadAhead := 0, handleArgs := [response] }
    | .ok m1 =>
      if m1 then
        -- if self.is_master: break
        { res := none, is_master := m1, hist := hist, nReceive := 0,
          nParse := 0, nHandle := 1, nLoop := 1, nReadAhead := 0,
          handleArgs := [response] }
      else
        match receives with
        | [] =>
          -- receive on an exhausted stream: a timeout
          match receiveStep parse none m1 hist with
          | .inl r =>
            { res := some r, is_master := m1, hist := hist, nReceive := 1,
              nParse := 0, nHandle := 1, nLoop := 1, nReadAhead := 0,
              handleArgs := [response] }
          | .inr (succ2, r2, hist2) =>
            -- unreachable: receiveStep on `none` always escapes
            { res := some (.error .other), is_master := m1, hist := hist2,
              nReceive := 1, nParse := 0, nHandle := 1, nLoop := 1,
              nReadAhead := 0, handleArgs := [response] }
        | rv :: rest =>
          match receiveStep parse (some rv) m1 hist with
          | .inl r =>
            { res := some r, is_master := m1, hist := hist, nReceive := 1,
              nParse := match rv with | .ok _ => 1 | .error _ => 0,
              nHandle := 1, nLoop := 1, nReadAhead := 0,
              handleArgs := [response] }
          | .inr (succ2, r2, hist2) =>
            -- lines 90-95: if self.is_master and success: read ahead
            if m1 ∧ succ2 then
              match handles (hIdx + 1) r2 with
              | .error e =>
                { res := some (.error e), is_master := m1, hist := hist2,
                  nReceive := 1, nParse := 1, nHandle := 2, nLoop := 1,
                  nReadAhead := 1, handleArgs := [response, r2] }
              | .ok stay =>
                let lr := transmitLoop parse handles packet (hIdx + 2) rest
                  stay succ2 r2 hist2
                { lr with
                  nReceive := lr.nReceive + 1
                  nParse := lr.nParse + 1
                  nHandle := lr.nHandle + 2
                  nLoop := lr.nLoop + 1
                  nReadAhead := lr.nReadAhead + 1
                  handleArgs := response :: r2 :: lr.handleArgs }
            else
              let lr := transmitLoop parse handles packet (hIdx + 1) rest
                m1 succ2 r2 hist2
              { lr with
                nReceive := lr.nReceive + 1
                nParse := lr.nParse + 1
                nHandle := lr.nHandle + 1
                nLoop := lr.nLoop + 1
                handleArgs := response :: lr.handleArgs }

/-- Observable outcome of one whole engine call: the returned status or
raised exception, the final engine state, and instrumentation counting the
collaborator calls the engine made (`nSend`/`nParse`/`nReceive`/`nHandle`),
the loop-body executions (`nLoop`) and the read-ahead re-checks taken
(`nReadAhead`).  `handleArgs` lists the response packets passed to
`handle_response`, in order. -/
structure CallOut (P : Type) where
  res : Except Exc Nat
  state : TState P
  nSend : Nat
  nParse : Nat
  nReceive : Nat
  nHandle : Nat
  nLoop : Nat
  nReadAhead : Nat
  handleArgs : List P
deriving Repr

namespace Transmission

/-- Embedding of `Transmission._transmit`
(src/ecrterm/transmission/_transmission.py lines 49-100).  `s` is the engine
state on entry, `hist0` the list object passed as the `history` argument
(aliased to `self.last_history` by the caller; the embedding threads it as a
value and stores the final list in `state.last_history`).  The outer
`except Exception` (lines 96-98) forces `is_master = True` before re-raising;
the normal exit (lines 99-100) also sets `is_master = True` and returns
`TRANSMIT_OK`.  The early `return TRANSMIT_OK` of the benign-timeout branch
leaves the loop's `is_master` untouched. -/
def transmit_ {P : Type} (env : Env P) (packet : P) (s : TState P)
    (hist0 : List (Bool × P)) : CallOut P :=
  -- lines 54-60: recovery leniency
  let m0 : Bool := if !s.is_master || s.is_waiting then true else false
  -- line 61: self.last = packet  (before the try block)
  let s1 : TState P := { s with is_master := m0, last := some packet }
  -- line 63: history += [(False, packet)]
  let hist1 := hist0 ++ [(false, packet)]
  match env.send with
  | .error e =>
    { res := .error e, state := { s1 with is_master := true, last_history := hist1 },
      nSend := 1, nParse := 0, nReceive := 0, nHandle := 0, nLoop := 0,
      nReadAhead := 0, handleArgs := [] }
  | .ok (success, raw) =>
    match env.parse raw with
    | .error e =>
      { res := .error e, state := { s1 with is_master := true, last_history := hist1 },
        nSend := 1, nParse := 1, nReceive := 0, nHandle := 0, nLoop := 0,
        nReadAhead := 0, handleArgs := [] }
    | .ok response =>
      -- line 68: history += [(True, response)]
      let hist2 := hist1 ++ [(true, response)]
      -- lines 71-72: if self.is_master: self.is_master = handle(last, response)
      match (if m0 then some (env.handles 0 response) else none) with
      | some (.error e) =>
        { res := .error e, state := { s1 with is_master := true, last_history := hist2 },
          nSend := 1, nParse := 1, nReceive := 0, nHandle := 1, nLoop := 0,
          nReadAhead := 0, handleArgs := [response] }
      | some (.ok m1) =>
        let lr := transmitLoop env.parse env.handles packet 1 env.receives
          m1 success response hist2
        finish s1 response 1 lr
      | none =>
        let lr := transmitLoop env.parse env.handles packet 0 env.receives
          m0 success response hist2
        finish s1 response 0 lr
where
  /-- Wrap up an execution that reached the slave-wait loop: lines 96-100. -/
  finish (s1 : TState P) (response : P) (pre : Nat) (lr : LoopRes P) :
      CallOut P :=
    let base : CallOut P :=
      { res := .ok TRANSMIT_OK, state := s1, nSend := 1,
        nParse := lr.nParse + 1,
        nReceive := lr.nReceive, nHandle := lr.nHandle + pre,
        nLoop := lr.nLoop, nReadAhead := lr.nReadAhead,
        handleArgs := if pre = 1 then response :: lr.handleArgs
          else lr.handleArgs }
    match lr.res with
    | none =>
      -- loop exited normally: lines 99-100
      { base with state := { s1 with is_master := true, last_history := lr.hist } }
    | some (.ok v) =>
      -- early `return TRANSMIT_OK` from inside the loop (line 88)
      { base with
        res := .ok v
        state := { s1 with is_master := lr.is_master, last_history := lr.hist } }
    | some (.error e) =>
      -- exception: lines 96-98
      { base with
        res := .error e
        state := { s1 with is_master := true, last_history := lr.hist } }

/-- Embedding of `Transmission.transmit` (lines 102-111): reset
`self.last_history` to the caller's list or a fresh empty one (`history or
[]`, so a caller-supplied empty list is replaced by a fresh empty list —
same value here), run `_transmit` on it, and merge it into `self.history`
whether `_transmit` returned or raised. -/
def transmit {P : Type} (env : Env P) (packet : P) (s : TState P)
    (history : Option (List (Bool × P))) : CallOut P :=
  let lh : List (Bool × P) :=
    match history with
    | none => []
    | some l => if l.isEmpty then [] else l
  let out := transmit_ env packet { s with last_history := lh } lh
  { out with
    state := { out.state with history := out.state.history ++ out.state.last_history } }

end Transmission

/-- Outcome of the `while self.is_master` loop of `_abort`.  `res = some e`
means an exception escaped the loop; `res = none` means the loop finished
(by `break` or by its condition turning false) and control falls through to
lines 171-172. -/
structure ALoopRes (P : Type) where
  res : Option Exc
  is_master : Bool
  nHandle : Nat
  nLoop : Nat
  nReadAhead : Nat
  handleArgs : List P
deriving Repr

/-- The `while self.is_master` loop of `_abort`
(src/ecrterm/transmission/_transmission.py lines 142-166), embedded
statement by statement.  The receive/parse block inside it is commented out
in the source, so the loop touches the transport not at all and keeps asking
`handle_response` about the one `response` it was entered with.  The
recursion is driven by `fuel`; re-entering the loop consumes one unit, and
checking the condition is free, so fuel `f + 1` allows `f + 1` body
executions.  `none` models fuel exhaustion; `abortLoop_one_iteration` shows
one unit is always enough. -/
def abortLoop {P : Type} (handles : Nat → P → Except Exc Bool) :
    Nat → Nat → Bool → Bool → P → Option (ALoopRes P)
  | fuel, hIdx, im, success, response =>
    if im = false then
      -- while condition false: the loop is over
      some { res := none, is_master := im, nHandle := 0, nLoop := 0,
             nReadAhead := 0, handleArgs := [] }
    else
      match fuel with
      | 0 => none
      | fuel + 1 =>
        -- self.is_master = self.handle_packet_response(self.last, response)
        match handles hIdx response with
        | .error e =>
          some { res := some e, is_master := im, nHandle := 1, nLoop := 1,
                 nReadAhead := 0, handleArgs := [response] }
        | .ok m1 =>
          if m1 then
            -- if self.is_master: break
            some { res := none, is_master := m1, nHandle := 1, nLoop := 1,
                   nReadAhead := 0, handleArgs := [response] }
          else
            -- lines 161-166: if self.is_master and success: read ahead
            if m1 ∧ success then
              match handles (hIdx + 1) response with
              | .error e =>
                some { res := some e, is_master := m1, nHandle := 2,
                       nLoop := 1, nReadAhead := 1,
                       handleArgs := [response, response] }
              | .ok stay =>
                match abortLoop handles fuel (hIdx + 2) stay success response with
                | none => none
                | some lr =>
                  some { lr with
                         nHandle := lr.nHandle + 2
                         nLoop := lr.nLoop + 1
                         nReadAhead := lr.nReadAhead + 1
                         handleArgs := response :: response :: lr.handleArgs }
            else
              match abortLoop handles fuel (hIdx + 1) m1 success response with
              | none => none
              | some lr =>
                some { lr with
                       nHandle := lr.nHandle + 1
                       nLoop := lr.nLoop + 1
                       handleArgs := response :: lr.handleArgs }

namespace Transmission

/-- Embedding of `Transmission._abort`
(src/ecrterm/transmission/_transmission.py lines 124-172).  Unconditionally
`self.is_master = True` (line 131), `self.last = packet`, send the packet,
parse exactly one reply, record both in the history, then run the
receive-free loop.  Any exception forces `is_master = True` and re-raises
(lines 167-170); normal completion sets `is_master = True` and returns
`TRANSMIT_OK` (lines 171-172).  The loop fuel is fixed at 1, which
`abortLoop_one_iteration` proves sufficient for every oracle; the `none`
branch below is unreachable. -/
def abort_ {P : Type} (env : Env P) (packet : P) (s : TState P)
    (hist0 : List (Bool × P)) : CallOut P :=
  let s1 : TState P := { s with is_master := true, last := some packet }
  let hist1 := hist0 ++ [(false, packet)]
  match env.send with
  | .error e =>
    { res := .error e, state := { s1 with is_master := true, last_history := hist1 },
      nSend := 1, nParse := 0, nReceive := 0, nHandle := 0, nLoop := 0,
      nReadAhead := 0, handleArgs := [] }
  | .ok (success, raw) =>
    match env.parse raw with
    | .error e =>
      { res := .error e, state := { s1 with is_master := true, last_history := hist1 },
        nSend := 1, nParse := 1, nReceive := 0, nHandle := 0, nLoop := 0,
        nReadAhead := 0, handleArgs := [] }
    | .ok response =>
      let hist2 := hist1 ++ [(true, response)]
      match abortLoop env.handles 1 0 true success response with
      | none =>
        -- unreachable: see abortLoop_one_iteration
        { res := .error .other, state := { s1 with is_master := true, last_history := hist2 },
          nSend := 1, nParse := 1, nReceive := 0, nHandle := 0, nLoop := 0,
          nReadAhead := 0, handleArgs := [] }
      | some lr =>
        match lr.res with
        | some e =>
          -- exception: lines 167-170
          { res := .error e, state := { s1 with is_master := true, last_history := hist2 },
            nSend := 1, nParse := 1, nReceive := 0, nHandle := lr.nHandle,
            nLoop := lr.nLoop, nReadAhead := lr.nReadAhead,
            handleArgs := lr.handleArgs }
        | none =>
          -- lines 171-172
          { res := .ok TRANSMIT_OK,
            state := { s1 with is_master := true, last_history := hist2 },
            nSend := 1, nParse := 1, nReceive := 0, nHandle := lr.nHandle,
            nLoop := lr.nLoop, nReadAhead := lr.nReadAhead,
            handleArgs := lr.handleArgs }

/-- Embedding of `Transmission.transmit_cancel` (lines 113-122): same
history bookkeeping as `transmit`, driving `_abort` instead of
`_transmit`. -/
def transmit_cancel {P : Type} (env : Env P) (packet : P) (s : TState P)
    (history : Option (List (Bool × P))) : CallOut P :=
  let lh : List (Bool × P) :=
    match history with
    | none => []
    | some l => if l.isEmpty then [] else l
  let out := abort_ env packet { s with last_history := lh } lh
  { out with
    state := { out.state with history := out.state.history ++ out.state.last_history } }

end Transmission

/-!
## Helper lemmas
-/

/-- With `is_master` false at the receive, `receiveStep` never escapes with a
success status: the benign-timeout `return TRANSMIT_OK` requires
`self.is_master` to be true. -/
theorem receiveStep_inl_false {P : Type} (parse : Raw → Except Exc P)
    (rv : Option (Except Exc (Bool × Raw))) (hist : List (Bool × P))
    (r : Except Exc Nat) :
    receiveStep parse rv false hist = .inl r → ∃ e, r = .error e := by
  unfold receiveStep
  rcases rv with _ | rv
  · simp only [Option.getD, Sum.inl.injEq]
    rintro rfl; exact ⟨_, rfl⟩
  · rcases rv with e | ⟨succ, raw⟩
    · cases e <;>
        · simp only [Option.getD, Sum.inl.injEq]
          rintro rfl; exact ⟨_, rfl⟩
    · simp only [Option.getD]
      rcases h : parse raw with e | p
      · cases e <;>
          · simp only [Sum.inl.injEq, if_neg]
            rintro rfl; exact ⟨_, rfl⟩
      · simp

/-- When `receiveStep` lets the loop continue, the new history is the old
one with the freshly parsed response appended. -/
theorem receiveStep_inr_hist {P : Type} (parse : Raw → Except Exc P)
    (rv : Option (Except Exc (Bool × Raw))) (im : Bool)
    (hist : List (Bool × P)) (succ : Bool) (r : P) (hist2 : List (Bool × P)) :
    receiveStep parse rv im hist = .inr (succ, r, hist2) →
    hist2 = hist ++ [(true, r)] := by
  unfold receiveStep
  rcases rv with _ | rv
  · simp only [Option.getD]; intro h; cases h
  · rcases rv with e | ⟨s0, raw⟩
    · cases e <;> · simp only [Option.getD]; intro h; cases h
    · simp only [Option.getD]
      rcases hp : parse raw with e | p
      · cases e <;> · intro h; cases h
      · intro h
        rcases h with ⟨⟩
        rfl

/-- The slave-wait loop only ever appends to the history it is given. -/
theorem transmitLoop_hist_extend {P : Type} (parse : Raw → Except Exc P)
    (handles : Nat → P → Except Exc Bool) (packet : P) :
    ∀ (receives : List (Except Exc (Bool × Raw))) (hIdx : Nat)
      (im success : Bool) (response : P) (hist : List (Bool × P)),
      ∃ t, (transmitLoop parse handles packet hIdx receives im success
        response hist).hist = hist ++ t := by
  intro receives
  induction receives with
  | nil =>
    intro hIdx im success response hist
    cases im
    · simp only [transmitLoop]
      rcases handles hIdx response with e | m1
      · exact ⟨[], by simp⟩
      · cases m1
        · rcases h : receiveStep parse none false hist with r | ⟨succ2, r2, hist2⟩
          · exact ⟨[], by simp [h]⟩
          · exact ⟨[], by simp [receiveStep] at h⟩
        · exact ⟨[], by simp⟩
    · exact ⟨[], by simp [transmitLoop]⟩
  | cons rv rest ih =>
    intro hIdx im success response hist
    cases im
    · simp only [transmitLoop]
      rcases handles hIdx response with e | m1
      · exact ⟨[], by simp⟩
      · cases m1
        · rcases h : receiveStep parse (some rv) false hist with r | ⟨succ2, r2, hist2⟩
          · exact ⟨[], by simp [h]⟩
          · have hh2 : hist2 = hist ++ [(true, r2)] :=
              receiveStep_inr_hist parse (some rv) false hist succ2 r2 hist2 h
            rcases ih (hIdx + 1) false succ2 r2 hist2 with ⟨t, ht⟩
            rw [hh2] at ht
            exact ⟨(true, r2) :: t, by simp [h, hh2, ht]⟩
        · exact ⟨[], by simp⟩
    · exact ⟨[], by simp [transmitLoop]⟩

/-- If the slave-wait loop terminates with the early success return (the
benign-timeout branch, line 88), then its recorded `is_master` is true: the
branch is guarded by `if self.is_master`. -/
theorem transmitLoop_ok_master {P : Type} (parse : Raw → Except Exc P)
    (handles : Nat → P → Except Exc Bool) (packet : P) :
    ∀ (receives : List (Except Exc (Bool × Raw))) (hIdx : Nat)
      (im success : Bool) (response : P) (hist : List (Bool × P)) (v : Nat),
      (transmitLoop parse handles packet hIdx receives im success response
        hist).res = some (.ok v) →
      (transmitLoop parse handles packet hIdx receives im success response
        hist).is_master = true := by
  intro receives
  induction receives with
  | nil =>
    intro hIdx im success response hist v hres
    cases im
    · simp only [transmitLoop] at hres ⊢
      rcases hh : handles hIdx response with e | m1
      · simp [hh] at hres
      · cases m1
        · simp only [hh] at hres ⊢
          rcases h : receiveStep parse none false hist with r | ⟨succ2, r2, hist2⟩
          · rcases receiveStep_inl_false parse none hist r h with ⟨e, rfl⟩
            simp [h] at hres
          · simp only [receiveStep, Option.getD] at h
            cases h
        · simp [hh] at hres
    · simp [transmitLoop] at hres
  | cons rv rest ih =>
    intro hIdx im success response hist v hres
    cases im
    · simp only [transmitLoop] at hres ⊢
      rcases hh : handles hIdx response with e | m1
      · simp [hh] at hres
      · cases m1
        · simp only [hh] at hres ⊢
          rcases h : receiveStep parse (some rv) false hist with r | ⟨succ2, r2, hist2⟩
          · rcases receiveStep_inl_false parse (some rv) hist r h with ⟨e, rfl⟩
            simp [h] at hres
          · simp only [h] at hres ⊢
            simp only [Bool.false_eq_true, false_and, if_false] at hres ⊢
            exact ih (hIdx + 1) false succ2 r2 hist2 v hres
        · simp [hh] at hres
    · simp [transmitLoop] at hres

/-- The wrap-up of `_transmit` leaves `self.history` alone. -/
theorem finish_history {P : Type} (s1 : TState P) (response : P) (pre : Nat)
    (lr : LoopRes P) :
    (Transmission.transmit_.finish s1 response pre lr).state.history
      = s1.history := by
  unfold Transmission.transmit_.finish
  rcases h : lr.res with _ | r
  · simp
  · rcases r with e | v <;> simp

/-- The wrap-up of `_transmit` leaves `self.is_waiting` alone. -/
theorem finish_waiting {P : Type} (s1 : TState P) (response : P) (pre : Nat)
    (lr : LoopRes P) :
    (Transmission.transmit_.finish s1 response pre lr).state.is_waiting
      = s1.is_waiting := by
  unfold Transmission.transmit_.finish
  rcases h : lr.res with _ | r
  · simp
  · rcases r with e | v <;> simp

/-- The wrap-up of `_transmit` leaves `self.last` alone. -/
theorem finish_last {P : Type} (s1 : TState P) (response : P) (pre : Nat)
    (lr : LoopRes P) :
    (Transmission.transmit_.finish s1 response pre lr).state.last
      = s1.last := by
  unfold Transmission.transmit_.finish
  rcases h : lr.res with _ | r
  · simp
  · rcases r with e | v <;> simp

/-- The wrap-up of `_transmit` stores the loop's final history as
`self.last_history` (the source mutates the aliased list in place). -/
theorem finish_lasthistory {P : Type} (s1 : TState P) (response : P)
    (pre : Nat) (lr : LoopRes P) :
    (Transmission.transmit_.finish s1 response pre lr).state.last_history
      = lr.hist := by
  unfold Transmission.transmit_.finish
  rcases h : lr.res with _ | r
  · simp
  · rcases r with e | v <;> simp

/-- The wrap-up of `_transmit` ends with `is_master` true — given that the
loop's early-success exit recorded `is_master` true
(`transmitLoop_ok_master`). -/
theorem finish_master {P : Type} (s1 : TState P) (response : P) (pre : Nat)
    (lr : LoopRes P)
    (hok : ∀ v, lr.res = some (.ok v) → lr.is_master = true) :
    (Transmission.transmit_.finish s1 response pre lr).state.is_master
      = true := by
  unfold Transmission.transmit_.finish
  rcases h : lr.res with _ | r
  · simp
  · rcases r with e | v
    · simp
    · simp [h, hok v h]

/-- Invariants of one `_transmit` run: `self.history` and `self.is_waiting`
are untouched, `self.last` is the sent packet, `self.is_master` is true on
every exit path, and the local history list grows from its initial value by
the outgoing entry followed by whatever else the run recorded. -/
theorem transmit__invariants {P : Type} (env : Env P) (packet : P)
    (s : TState P) (hist0 : List (Bool × P)) :
    (Transmission.transmit_ env packet s hist0).state.history = s.history ∧
    (Transmission.transmit_ env packet s hist0).state.is_waiting = s.is_waiting ∧
    (Transmission.transmit_ env packet s hist0).state.last = some packet ∧
    (Transmission.transmit_ env packet s hist0).state.is_master = true ∧
    ∃ t, (Transmission.transmit_ env packet s hist0).state.last_history
      = hist0 ++ (false, packet) :: t := by
  unfold Transmission.transmit_
  rcases hsend : env.send with e | ⟨success, raw⟩
  · refine ⟨by simp, by simp, by simp, by simp, [], by simp⟩
  · rcases hp : env.parse raw with e | response
    · simp only [hp]
      refine ⟨by simp, by simp, by simp, by simp, [], by simp⟩
    · simp only [hp]
      by_cases hm : (!s.is_master || s.is_waiting) = true
      · simp only [hm, if_true]
        rcases hh : env.handles 0 response with e | m1
        · refine ⟨by simp, by simp, by simp, by simp,
            [(true, response)], by simp⟩
        · rcases transmitLoop_hist_extend env.parse env.handles packet
            env.receives 1 m1 success response
            (hist0 ++ [(false, packet), (true, response)]) with ⟨t, ht⟩
          refine ⟨by simp [finish_history], by simp [finish_waiting],
            by simp [finish_last],
            finish_master _ _ _ _
              (fun v hv => transmitLoop_ok_master env.parse env.handles
                packet env.receives 1 m1 success response _ v hv),
            (true, response) :: t, by simp [finish_lasthistory, ht]⟩
      · simp only [hm, if_false]
        rcases transmitLoop_hist_extend env.parse env.handles packet
          env.receives 0 false success response
          (hist0 ++ [(false, packet), (true, response)]) with ⟨t, ht⟩
        refine ⟨by simp [finish_history], by simp [finish_waiting],
          by simp [finish_last],
          finish_master _ _ _ _
            (fun v hv => transmitLoop_ok_master env.parse env.handles
              packet env.receives 0 false success response _ v hv),
          (true, response) :: t, by simp [finish_lasthistory, ht]⟩

/-- Entering the abort loop with `is_master` false ends it at once, whatever
the fuel: the `while self.is_master` condition is already false. -/
theorem abortLoop_false {P : Type} (handles : Nat → P → Except Exc Bool)
    (fuel hIdx : Nat) (succ : Bool) (resp : P) :
    abortLoop handles fuel hIdx false succ resp
      = some { res := none, is_master := false, nHandle := 0, nLoop := 0,
               nReadAhead := 0, handleArgs := [] } := by
  unfold abortLoop
  simp

/-- The abort loop always finishes after exactly one body execution, with
exactly one `handle_response` call (about the single parsed reply) and
without ever taking the read-ahead branch — and one unit of fuel is enough,
whatever the oracle answers: the body either breaks (`handle_response` kept
master), or leaves `is_master` false so the condition check ends the loop
without consuming fuel. -/
theorem abortLoop_one_iteration {P : Type}
    (handles : Nat → P → Except Exc Bool) (fuel hIdx : Nat) (succ : Bool)
    (resp : P) :
    abortLoop handles (fuel + 1) hIdx true succ resp
      = abortLoop handles 1 hIdx true succ resp ∧
    ∃ lr, abortLoop handles 1 hIdx true succ resp = some lr ∧
      lr.nLoop = 1 ∧ lr.nHandle = 1 ∧ lr.nReadAhead = 0 ∧
      lr.handleArgs = [resp] := by
  constructor
  · conv_lhs => unfold abortLoop
    conv_rhs => unfold abortLoop
    simp only [Bool.true_eq_false, if_false]
    rcases hh : handles hIdx resp with e | m1
    · rfl
    · cases m1
      · simp [abortLoop_false]
      · rfl
  · unfold abortLoop
    simp only [Bool.true_eq_false, if_false]
    rcases hh : handles hIdx resp with e | m1
    · refine ⟨_, rfl, ?_, ?_, ?_, ?_⟩ <;> rfl
    · cases m1
      · simp only [Bool.false_eq_true, if_false, false_and, abortLoop_false]
        refine ⟨_, rfl, ?_, ?_, ?_, ?_⟩ <;> rfl
      · refine ⟨_, rfl, ?_, ?_, ?_, ?_⟩ <;> rfl

/-- Invariants of one `_abort` run: `self.history` and `self.is_waiting` are
untouched, `self.last` is the sent packet, `self.is_master` is true on every
exit path, and the local history list grows from its initial value by the
outgoing entry followed by at most the one parsed reply. -/
theorem abort__invariants {P : Type} (env : Env P) (packet : P)
    (s : TState P) (hist0 : List (Bool × P)) :
    (Transmission.abort_ env packet s hist0).state.history = s.history ∧
    (Transmission.abort_ env packet s hist0).state.is_waiting = s.is_waiting ∧
    (Transmission.abort_ env packet s hist0).state.last = some packet ∧
    (Transmission.abort_ env packet s hist0).state.is_master = true ∧
    ∃ t, (Transmission.abort_ env packet s hist0).state.last_history
      = hist0 ++ (false, packet) :: t := by
  unfold Transmission.abort_
  rcases hsend : env.send with e | ⟨success, raw⟩
  · exact ⟨rfl, rfl, rfl, rfl, [], rfl⟩
  · rcases hp : env.parse raw with e | response
    · refine ⟨?_, ?_, ?_, ?_, ⟨[], ?_⟩⟩ <;> simp [hp]
    · rcases hl : abortLoop env.handles 1 0 true success response with _ | lr
      · refine ⟨?_, ?_, ?_, ?_, ⟨[(true, response)], ?_⟩⟩ <;> simp [hp, hl]
      · rcases hr : lr.res with _ | e
        · refine ⟨?_, ?_, ?_, ?_, ⟨[(true, response)], ?_⟩⟩ <;>
            simp [hp, hl, hr]
        · refine ⟨?_, ?_, ?_, ?_, ⟨[(true, response)], ?_⟩⟩ <;>
            simp [hp, hl, hr]

/-- Core fact about the scanner of `dismantle_serial_packet`: whenever the
escape flag is set at the start of an iteration, the current byte is the very
DLE that set it (the `continue` without `i += 1` re-reads it).  Hence the
`b == ETX and dle` terminator test and the `DLE without sense` branch can
never fire, the checksum is never read, and — given enough fuel — the loop
always returns normally with `crc = None`. -/
theorem dismantleLoop_ok (data : List Nat) :
    ∀ (fuel i : Nat) (dle : Bool) (apdu : List Nat),
      2 * (data.length - i) - (if dle then 1 else 0) < fuel →
      (dle = true → ∃ h : i < data.length, data.get ⟨i, h⟩ = DLE) →
      ∃ ap, dismantleLoop data fuel i dle apdu = .ok (none, ap) := by
  intro fuel
  induction fuel with
  | zero => intro i dle apdu hfuel hinv; omega
  | succ f ih =>
    intro i dle apdu hfuel hinv
    by_cases h : i < data.length
    · have hb : ¬(data[i] = ETX ∧ dle = true) := by
        rintro ⟨hetx, hdle⟩
        rcases hinv hdle with ⟨h2, hd⟩
        simp only [List.get_eq_getElem] at hd
        rw [hetx] at hd
        simp [ETX, DLE] at hd
      have hde : (DLE : Nat) ≠ ETX := by decide
      by_cases hdl : data[i] = DLE
      · cases dle with
        | false =>
          have step : dismantleLoop data (f + 1) i false apdu
              = dismantleLoop data f i true apdu := by
            conv_lhs => unfold dismantleLoop
            simp [h, hdl, hb, hde]
          rw [step]
          refine ih i true apdu (by simp at hfuel ⊢; omega)
            (fun _ => ⟨h, by simpa using hdl⟩)
        | true =>
          have step : dismantleLoop data (f + 1) i true apdu
              = dismantleLoop data f (i + 1) false
                  (apdu ++ [data[i]]) := by
            conv_lhs => unfold dismantleLoop
            simp [h, hdl, hb, hde]
          rw [step]
          refine ih (i + 1) false _ (by simp at hfuel ⊢; omega) (by simp)
      · cases dle with
        | false =>
          have step : dismantleLoop data (f + 1) i false apdu
              = dismantleLoop data f (i + 1) false
                  (apdu ++ [data[i]]) := by
            conv_lhs => unfold dismantleLoop
            simp [h, hdl, hb, hde]
          rw [step]
          refine ih (i + 1) false _ (by simp at hfuel ⊢; omega) (by simp)
        | true =>
          rcases hinv rfl with ⟨h2, hd⟩
          simp only [List.get_eq_getElem] at hd
          exact absurd hd hdl
    · refine ⟨apdu, ?_⟩
      unfold dismantleLoop
      simp [h]

/-- Past a valid `[DLE, STX]` header, `dismantle_serial_packet` always
returns normally, with `crc = None` and whatever body the scanner
accumulated: the DLE+ETX terminator is never recognized. -/
theorem dismantle_header_ok (data : List Nat)
    (hhead : data.take 2 = [DLE, STX]) :
    ∃ ap, dismantle_serial_packet data = .ok (none, ap) := by
  have hlen : 2 ≤ data.length := by
    have := congrArg List.length hhead
    simp at this
    omega
  unfold dismantle_serial_packet
  simp only [hhead]
  have hne : ([DLE, STX] : List Nat) ≠ [] := by simp
  rw [if_neg hne, if_neg (by simp)]
  refine dismantleLoop_ok data (2 * data.length + 1) 2 false []
    (by simp; omega) (by simp)

/-!
## Claim theorems — wire frame codec
-/

/-- C3: evaluating `dismantle_serial_packet` on the Scenario E frame
`[DLE,STX, 0x01,0x02, DLE,DLE, 0x03, DLE,ETX, crc1,crc2]` (with
crc1 = 170, crc2 = 187).  The claim expects body `[0x01,0x02,0x10,0x03]` and
checksum `[crc1,crc2]`; the code instead returns `crc = None` and a body
containing the doubled DLE twice, the terminator bytes and the checksum
bytes, because the `continue` without `i += 1` re-reads each DLE and the
DLE+ETX terminator is never recognized. -/
theorem c3_scenarioE_actual :
    dismantle_serial_packet
      [DLE, STX, 0x01, 0x02, DLE, DLE, 0x03, DLE, ETX, 170, 187]
      = .ok (none, [0x01, 0x02, 0x10, 0x10, 0x03, 0x10, 0x03, 170, 187]) :=
  rfl

/-- C4 counterexample: the input `[DLE, STX, 0x01]` has a valid header and
no DLE+ETX terminator, yet `dismantle_serial_packet` returns normally with a
partial body instead of failing: the claimed truncated-frame error does not
exist. -/
theorem c4_truncated_counterexample :
    dismantle_serial_packet [DLE, STX, 0x01] = .ok (none, [0x01]) ∧
    (dismantle_serial_packet [DLE, STX, 0x01]).isOk = true :=
  ⟨rfl, rfl⟩

/-- C4 (amended): for every input that begins with the valid `[DLE, STX]`
header, `dismantle_serial_packet` returns normally with checksum `None` and
the partial body scanned so far — it never fails with a truncated-frame
error (indeed the terminator is never recognized at all). -/
theorem c4_truncated_amended (data : List Nat)
    (hhead : data.take 2 = [DLE, STX]) :
    ∃ ap, dismantle_serial_packet data = .ok (none, ap) :=
  dismantle_header_ok data hhead

/-- C4 witness: the amended statement at the concrete input
`[DLE, STX, 0x01]`. -/
theorem c4_truncated_amended_witness :
    ([DLE, STX, 0x01] : List Nat).take 2 = [DLE, STX] ∧
    ∃ ap, dismantle_serial_packet [DLE, STX, 0x01] = .ok (none, ap) :=
  ⟨rfl, c4_truncated_amended [DLE, STX, 0x01] rfl⟩

/-- C7: on `[DLE, STX, DLE, 0x42]` — a DLE followed by a byte that is
neither DLE nor ETX — the decoder returns normally instead of raising the
claimed framing violation; and in general every run of
`dismantle_serial_packet` either succeeds or fails with one of the two
header errors: the `DLE without sense` branch (and the checksum read) is
unreachable, because the escape flag is only ever set while the scanner
stands on the DLE byte itself. -/
theorem c7_dle_without_sense_unreachable :
    dismantle_serial_packet [DLE, STX, DLE, 0x42] = .ok (none, [DLE, 0x42]) ∧
    ∀ data, (dismantle_serial_packet data).isOk = true
      ∨ dismantle_serial_packet data = .error .noHeader
      ∨ dismantle_serial_packet data = .error .headerError := by
  constructor
  · rfl
  · intro data
    by_cases h0 : data.take 2 = []
    · right; left
      simp [dismantle_serial_packet, h0]
    · by_cases h1 : data.take 2 = [DLE, STX]
      · left
        rcases dismantle_header_ok data h1 with ⟨ap, hap⟩
        simp [hap, Except.isOk, Except.toBool]
      · right; right
        simp [dismantle_serial_packet, h0, h1]

/-- C9: a 1-byte input equal to the ACK (respectively NAK) control value is
classified by `parse_represented_data` as the distinguished ACK
(respectively NAK) marker, for every packet parser — never as a parsed
packet. -/
theorem c9_ack_nak_classification {P : Type} (pparse : List Nat → P) :
    parse_represented_data pparse [ACK] = .ack ∧
    parse_represented_data pparse [NAK] = .nak :=
  ⟨rfl, rfl⟩

/-!
## Claim theorems — transmission engine
-/

/-- C1: for every call to `transmit` or `transmit_cancel`, whatever the
transport, parser and `handle_response` oracles do — return any values or
raise at any point — the engine's `is_master` field equals true immediately
after the call returns normally or raises: every exit path of `_transmit`
and `_abort` restores `is_master = True`. -/
theorem c1_master_invariant {P : Type} (env : Env P) (packet : P)
    (s : TState P) (history : Option (List (Bool × P))) :
    (Transmission.transmit env packet s history).state.is_master = true ∧
    (Transmission.transmit_cancel env packet s history).state.is_master
      = true :=
  ⟨(transmit__invariants env packet _ _).2.2.2.1,
   (abort__invariants env packet _ _).2.2.2.1⟩

/-- C2: for a `transmit` or `transmit_cancel` call with no caller-supplied
history list, the permanent history after the call — whether it returned or
raised — equals the history before the call concatenated with that call's
local history, and the local history contains only this call's records,
beginning with the outgoing packet (it was reset to empty at call start). -/
theorem c2_history_growth {P : Type} (env : Env P) (packet : P)
    (s : TState P) :
    ((Transmission.transmit env packet s none).state.history
        = s.history
          ++ (Transmission.transmit env packet s none).state.last_history) ∧
    ((Transmission.transmit env packet s none).state.last_history.head?
        = some (false, packet)) ∧
    ((Transmission.transmit_cancel env packet s none).state.history
        = s.history
          ++ (Transmission.transmit_cancel env packet s none).state.last_history) ∧
    ((Transmission.transmit_cancel env packet s none).state.last_history.head?
        = some (false, packet)) := by
  obtain ⟨h1h, -, -, -, t1, h1l⟩ := transmit__invariants env packet
    { s with last_history := ([] : List (Bool × P)) } []
  obtain ⟨h2h, -, -, -, t2, h2l⟩ := abort__invariants env packet
    { s with last_history := ([] : List (Bool × P)) } []
  refine ⟨?_, ?_, ?_, ?_⟩ <;>
    simp [Transmission.transmit, Transmission.transmit_cancel,
      h1h, h1l, h2h, h2l]

/-- C5: in the slave-wait loop of `transmit`, when `transport.receive`
raises the transport-layer (timeout) exception, the caught branch returns
the success status if `self.is_master` is true at that moment, and re-raises
the failure to the caller if `self.is_master` is still false; and whenever
`transmit` propagates an exception, the partial history of the incomplete
exchange has still been merged into the permanent history. -/
theorem c5_receive_timeout {P : Type} (parse : Raw → Except Exc P)
    (im : Bool) (hist : List (Bool × P)) (env : Env P) (packet : P)
    (s : TState P) (history : Option (List (Bool × P))) :
    ((im = true →
        receiveStep parse (some (.error .transportLayer)) im hist
          = .inl (.ok TRANSMIT_OK)) ∧
     (im = false →
        receiveStep parse (some (.error .transportLayer)) im hist
          = .inl (.error .transportLayer))) ∧
    (∀ e, (Transmission.transmit env packet s history).res = .error e →
      (Transmission.transmit env packet s history).state.history
        = s.history
          ++ (Transmission.transmit env packet s history).state.last_history) := by
  refine ⟨⟨?_, ?_⟩, ?_⟩
  · rintro rfl; rfl
  · rintro rfl; rfl
  · intro e _
    rcases history with _ | l
    · have h := (transmit__invariants env packet
        { s with last_history := ([] : List (Bool × P)) } []).1
      simp [Transmission.transmit, h]
    · by_cases hl : l.isEmpty
      · have h := (transmit__invariants env packet
          { s with last_history := ([] : List (Bool × P)) } []).1
        simp [Transmission.transmit, hl, h]
      · have h := (transmit__invariants env packet
          { s with last_history := l } l).1
        simp [Transmission.transmit, hl, h]

/-- C5 witness: the three branches at concrete inputs — the benign branch at
`is_master = true`, the re-raise branch at `is_master = false`, and a full
`transmit` run (receive times out while still slave) that raises with the
incomplete exchange merged into the permanent history. -/
theorem c5_receive_timeout_witness :
    (receiveStep (fun raw => Except.ok (raw.headD 0))
        (some (.error .transportLayer)) true [] = .inl (.ok TRANSMIT_OK)) ∧
    (receiveStep (fun raw => Except.ok (raw.headD 0))
        (some (.error .transportLayer)) false []
      = .inl (.error .transportLayer)) ∧
    ((Transmission.transmit (P := Nat)
        { send := .ok (true, [1]), parse := fun raw => .ok (raw.headD 0),
          receives := [.error .transportLayer],
          handles := fun _ _ => .ok false }
        7 ⟨true, false, none, [(true, 9)], []⟩ none).state.history
      = [(true, 9)]
        ++ (Transmission.transmit (P := Nat)
            { send := .ok (true, [1]), parse := fun raw => .ok (raw.headD 0),
              receives := [.error .transportLayer],
              handles := fun _ _ => .ok false }
            7 ⟨true, false, none, [(true, 9)], []⟩ none).state.last_history) :=
  ⟨(c5_receive_timeout (fun raw => Except.ok (raw.headD 0)) true []
      { send := .ok (true, [1]), parse := fun raw => .ok (raw.headD 0),
        receives := [.error .transportLayer], handles := fun _ _ => .ok false }
      7 ⟨true, false, none, [(true, 9)], []⟩ none).1.1 rfl,
   (c5_receive_timeout (fun raw => Except.ok (raw.headD 0)) false []
      { send := .ok (true, [1]), parse := fun raw => .ok (raw.headD 0),
        receives := [.error .transportLayer], handles := fun _ _ => .ok false }
      7 ⟨true, false, none, [(true, 9)], []⟩ none).1.2 rfl,
   (c5_receive_timeout (fun raw => Except.ok (raw.headD 0)) false []
      { send := .ok (true, [1]), parse := fun raw => .ok (raw.headD 0),
        receives := [.error .transportLayer], handles := fun _ _ => .ok false }
      7 ⟨true, false, none, [(true, 9)], []⟩ none).2 .transportLayer rfl⟩

/-- C6: a `transmit` call whose `handle_response` answers false (withhold
master) for the immediate reply and true (grant master) for the next
received frame — for every call index, so the answer depends only on the
frame — makes exactly one `transport.receive` call, returns the success
status, and its local history has exactly the three entries: the outgoing
request, the immediate reply, and the second received frame. -/
theorem c6_scenario_b {P : Type} (env : Env P) (packet : P) (s : TState P)
    (su su2 : Bool) (raw0 raw2 : Raw) (r1 r2 : P)
    (rest : List (Except Exc (Bool × Raw)))
    (hsend : env.send = .ok (su, raw0))
    (hp0 : env.parse raw0 = .ok r1)
    (hrecv : env.receives = .ok (su2, raw2) :: rest)
    (hp2 : env.parse raw2 = .ok r2)
    (h1 : ∀ i, env.handles i r1 = .ok false)
    (h2 : ∀ i, env.handles i r2 = .ok true) :
    (Transmission.transmit env packet s none).res = .ok TRANSMIT_OK ∧
    (Transmission.transmit env packet s none).nReceive = 1 ∧
    (Transmission.transmit env packet s none).state.last_history
      = [(false, packet), (true, r1), (true, r2)] := by
  have hloop : ∀ (hIdx : Nat) (hist : List (Bool × P)),
      transmitLoop env.parse env.handles packet hIdx
        (.ok (su2, raw2) :: rest) false su r1 hist
      = { res := none, is_master := true, hist := hist ++ [(true, r2)],
          nReceive := 1, nParse := 1, nHandle := 2, nLoop := 2,
          nReadAhead := 0, handleArgs := [r1, r2] } := by
    intro hIdx hist
    conv_lhs => unfold transmitLoop
    simp only [h1 hIdx, receiveStep, Option.getD, hp2]
    conv_lhs => unfold transmitLoop
    simp [h2 (hIdx + 1)]
  unfold Transmission.transmit Transmission.transmit_
  simp only [hsend, hp0, hrecv]
  by_cases hm : (!s.is_master || s.is_waiting) = true
  · simp only [hm, if_true, h1 0, hloop, Transmission.transmit_.finish]
    refine ⟨?_, ?_, ?_⟩ <;> simp
  · have hm2 : (!s.is_master || s.is_waiting) = false := by simpa using hm
    simp only [hm2, Bool.false_eq_true, if_false, hloop,
      Transmission.transmit_.finish]
    refine ⟨?_, ?_, ?_⟩ <;> simp

/-- C6 witness: Scenario B at a concrete oracle (responses are numbers;
the handler grants master exactly on frame 2). -/
theorem c6_scenario_b_witness :
    (Transmission.transmit (P := Nat)
        { send := .ok (true, [1]), parse := fun raw => .ok (raw.headD 0),
          receives := [.ok (true, [2])],
          handles := fun _ r => .ok (decide (r = 2)) }
        7 ⟨true, false, none, [], []⟩ none).res = .ok TRANSMIT_OK ∧
    (Transmission.transmit (P := Nat)
        { send := .ok (true, [1]), parse := fun raw => .ok (raw.headD 0),
          receives := [.ok (true, [2])],
          handles := fun _ r => .ok (decide (r = 2)) }
        7 ⟨true, false, none, [], []⟩ none).nReceive = 1 ∧
    (Transmission.transmit (P := Nat)
        { send := .ok (true, [1]), parse := fun raw => .ok (raw.headD 0),
          receives := [.ok (true, [2])],
          handles := fun _ r => .ok (decide (r = 2)) }
        7 ⟨true, false, none, [], []⟩ none).state.last_history
      = [(false, 7), (true, 1), (true, 2)] :=
  c6_scenario_b
    { send := .ok (true, [1]), parse := fun raw => .ok (raw.headD 0),
      receives := [.ok (true, [2])],
      handles := fun _ r => .ok (decide (r = 2)) }
    7 ⟨true, false, none, [], []⟩ true true [1] [2] 1 2 []
    rfl rfl rfl rfl (fun _ => rfl) (fun _ => rfl)

/-- One `_abort` run reads neither `is_master` nor `is_waiting` from the
prior state: it behaves identically whatever they were, and only carries
`is_waiting` through to the final state. -/
theorem abort__state_independent {P : Type} (env : Env P) (packet : P)
    (s : TState P) (hist0 : List (Bool × P)) (b w : Bool) :
    Transmission.abort_ env packet
        { s with is_master := b, is_waiting := w } hist0
      = { Transmission.abort_ env packet s hist0 with
          state := { (Transmission.abort_ env packet s hist0).state with
                     is_waiting := w } } := by
  unfold Transmission.abort_
  rcases hsend : env.send with e | ⟨su, raw⟩
  · rfl
  · rcases hp : env.parse raw with e | r
    · simp only [hp]
    · simp only [hp]
      rcases hl : abortLoop env.handles 1 0 true su r with _ | lr
      · rfl
      · rcases hr : lr.res with _ | e <;> simp only [hr]

/-- C8: every `transmit_cancel` call takes the master role unconditionally —
its behaviour is identical for every prior `is_master`/`is_waiting` (which it
never reads; `is_waiting` is merely carried through) — performs exactly one
`transport.send`, never calls `transport.receive`, and parses exactly one
reply when the send succeeds; every `handle_response` re-ask in the abort
loop is about that same single parsed reply. -/
theorem c8_abort_unconditional {P : Type} (env : Env P) (packet : P)
    (s : TState P) (history : Option (List (Bool × P))) :
    (∀ b w, Transmission.transmit_cancel env packet
        { s with is_master := b, is_waiting := w } history
      = { Transmission.transmit_cancel env packet s history with
          state :=
            { (Transmission.transmit_cancel env packet s history).state with
              is_waiting := w } }) ∧
    (Transmission.transmit_cancel env packet s history).nSend = 1 ∧
    (Transmission.transmit_cancel env packet s history).nReceive = 0 ∧
    (∀ su raw, env.send = .ok (su, raw) →
      (Transmission.transmit_cancel env packet s history).nParse = 1 ∧
      ∀ r, env.parse raw = .ok r →
        ∀ x ∈ (Transmission.transmit_cancel env packet s history).handleArgs,
          x = r) := by
  have houtline : ∀ (lh : List (Bool × P)) b w,
      Transmission.abort_ env packet
        { s with is_master := b, is_waiting := w, last_history := lh } lh
      = { Transmission.abort_ env packet { s with last_history := lh } lh with
          state :=
            { (Transmission.abort_ env packet
                { s with last_history := lh } lh).state with
              is_waiting := w } } :=
    fun lh b w =>
      abort__state_independent env packet { s with last_history := lh } lh b w
  refine ⟨?_, ?_, ?_, ?_⟩
  · intro b w
    rcases history with _ | l
    · simp only [Transmission.transmit_cancel]
      rw [houtline [] b w]
    · simp only [Transmission.transmit_cancel]
      rw [houtline (if l.isEmpty then [] else l) b w]
  · simp only [Transmission.transmit_cancel, Transmission.abort_]
    rcases hsend : env.send with e | ⟨su, raw⟩
    · rfl
    · rcases hp : env.parse raw with e | r
      · simp [hp]
      · simp only [hp]
        rcases hl : abortLoop env.handles 1 0 true su r with _ | lr
        · rfl
        · rcases hr : lr.res with _ | e <;> simp [hr]
  · simp only [Transmission.transmit_cancel, Transmission.abort_]
    rcases hsend : env.send with e | ⟨su, raw⟩
    · rfl
    · rcases hp : env.parse raw with e | r
      · simp [hp]
      · simp only [hp]
        rcases hl : abortLoop env.handles 1 0 true su r with _ | lr
        · rfl
        · rcases hr : lr.res with _ | e <;> simp [hr]
  · intro su raw hsend
    simp only [Transmission.transmit_cancel, Transmission.abort_, hsend]
    rcases hp : env.parse raw with e | r0
    · refine ⟨by simp [hp], ?_⟩
      intro r hpr
      simp at hpr
    · obtain ⟨-, lr, hl, -, -, -, hargs⟩ :=
        abortLoop_one_iteration env.handles 0 0 su r0
      refine ⟨?_, ?_⟩
      · simp only [hp, hl]
        rcases hr : lr.res with _ | e <;> simp [hr]
      · intro r hpr x hx
        rcases hpr with ⟨⟩
        simp only [hp, hl] at hx
        rcases hr : lr.res with _ | e <;>
          · simp only [hr] at hx
            rw [hargs] at hx
            simpa using hx

/-- C8 witness: the unconditional-master shape at a concrete oracle, with a
prior state that was slave and waiting. -/
theorem c8_abort_unconditional_witness :
    (Transmission.transmit_cancel (P := Nat)
        { send := .ok (true, [1]), parse := fun raw => .ok (raw.headD 0),
          receives := [], handles := fun _ _ => .ok false }
        7 { is_master := false, is_waiting := true, last := none,
            history := [], last_history := [] } none
      = { Transmission.transmit_cancel (P := Nat)
            { send := .ok (true, [1]), parse := fun raw => .ok (raw.headD 0),
              receives := [], handles := fun _ _ => .ok false }
            7 { is_master := true, is_waiting := false, last := none,
                history := [], last_history := [] } none with
          state :=
            { (Transmission.transmit_cancel (P := Nat)
                { send := .ok (true, [1]),
                  parse := fun raw => .ok (raw.headD 0),
                  receives := [], handles := fun _ _ => .ok false }
                7 { is_master := true, is_waiting := false, last := none,
                    history := [], last_history := [] } none).state with
              is_waiting := true } }) ∧
    (Transmission.transmit_cancel (P := Nat)
        { send := .ok (true, [1]), parse := fun raw => .ok (raw.headD 0),
          receives := [], handles := fun _ _ => .ok false }
        7 { is_master := true, is_waiting := false, last := none,
            history := [], last_history := [] } none).nSend = 1 ∧
    (Transmission.transmit_cancel (P := Nat)
        { send := .ok (true, [1]), parse := fun raw => .ok (raw.headD 0),
          receives := [], handles := fun _ _ => .ok false }
        7 { is_master := true, is_waiting := false, last := none,
            history := [], last_history := [] } none).nReceive = 0 ∧
    (Transmission.transmit_cancel (P := Nat)
        { send := .ok (true, [1]), parse := fun raw => .ok (raw.headD 0),
          receives := [], handles := fun _ _ => .ok false }
        7 { is_master := true, is_waiting := false, last := none,
            history := [], last_history := [] } none).nParse = 1 ∧
    (1 : Nat) = 1 := by
  have h := c8_abort_unconditional (P := Nat)
    { send := .ok (true, [1]), parse := fun raw => .ok (raw.headD 0),
      receives := [], handles := fun _ _ => .ok false }
    7 { is_master := true, is_waiting := false, last := none,
        history := [], last_history := [] } none
  exact ⟨h.1 false true, h.2.1, h.2.2.1, (h.2.2.2 true [1] rfl).1,
    (h.2.2.2 true [1] rfl).2 1 rfl 1 (by decide)⟩

/-- C10: with the response handler modelled as an oracle that cannot mutate
the engine (a pure function of the call index and the response), every
`transmit_cancel` call whose send and parse succeed executes the abort loop
body exactly once, invokes `handle_response` exactly once, never reaches the
read-ahead re-check — its guard would need `is_master` to be true right
after being assigned a false return value — and the loop terminates: its
result is the same for every fuel bound and is always defined at fuel 1. -/
theorem c10_abort_terminates {P : Type} (env : Env P) (packet : P)
    (s : TState P) (history : Option (List (Bool × P))) (su : Bool)
    (raw : Raw) (r : P) (hsend : env.send = .ok (su, raw))
    (hp : env.parse raw = .ok r) :
    (Transmission.transmit_cancel env packet s history).nLoop = 1 ∧
    (Transmission.transmit_cancel env packet s history).nHandle = 1 ∧
    (Transmission.transmit_cancel env packet s history).nReadAhead = 0 ∧
    (∀ fuel, abortLoop env.handles (fuel + 1) 0 true su r
        = abortLoop env.handles 1 0 true su r) ∧
    (abortLoop env.handles 1 0 true su r).isSome = true := by
  obtain ⟨-, lr, hl, hn1, hn2, hn3, -⟩ :=
    abortLoop_one_iteration env.handles 0 0 su r
  refine ⟨?_, ?_, ?_, ?_, ?_⟩
  · simp only [Transmission.transmit_cancel, Transmission.abort_, hsend,
      hp, hl]
    rcases hr : lr.res with _ | e <;> simp [hr, hn1]
  · simp only [Transmission.transmit_cancel, Transmission.abort_, hsend,
      hp, hl]
    rcases hr : lr.res with _ | e <;> simp [hr, hn2]
  · simp only [Transmission.transmit_cancel, Transmission.abort_, hsend,
      hp, hl]
    rcases hr : lr.res with _ | e <;> simp [hr, hn3]
  · intro fuel
    exact (abortLoop_one_iteration env.handles fuel 0 su r).1
  · simp [hl]

/-- C10 witness: a concrete abort run (send and parse succeed, handler
withholds master) has one loop iteration, one handler call, no read-ahead,
and a fuel-independent loop result. -/
theorem c10_abort_terminates_witness :
    (Transmission.transmit_cancel (P := Nat)
        { send := .ok (true, [1]), parse := fun raw => .ok (raw.headD 0),
          receives := [], handles := fun _ _ => .ok false }
        7 { is_master := true, is_waiting := false, last := none,
            history := [], last_history := [] } none).nLoop = 1 ∧
    (Transmission.transmit_cancel (P := Nat)
        { send := .ok (true, [1]), parse := fun raw => .ok (raw.headD 0),
          receives := [], handles := fun _ _ => .ok false }
        7 { is_master := true, is_waiting := false, last := none,
            history := [], last_history := [] } none).nHandle = 1 ∧
    (Transmission.transmit_cancel (P := Nat)
        { send := .ok (true, [1]), parse := fun raw => .ok (raw.headD 0),
          receives := [], handles := fun _ _ => .ok false }
        7 { is_master := true, is_waiting := false, last := none,
            history := [], last_history := [] } none).nReadAhead = 0 ∧
    (∀ fuel, abortLoop (P := Nat) (fun _ _ => .ok false) (fuel + 1) 0 true
        true 1 = abortLoop (fun _ _ => .ok false) 1 0 true true 1) ∧
    (abortLoop (P := Nat) (fun _ _ => .ok false) 1 0 true true 1).isSome
      = true :=
  c10_abort_terminates
    { send := .ok (true, [1]), parse := fun raw => .ok (raw.headD 0),
      receives := [], handles := fun _ _ => .ok false }
    7 { is_master := true, is_waiting := false, last := none,
        history := [], last_history := [] } none true [1] 1 rfl rfl
